import Mathlib

/- Verification of the change-detection and scheduling core of the
   calendarwhatsapp repository, as a shallow embedding in Lean.

   Modelling conventions:
   - timestamps are integer milliseconds since the epoch, the value of
     Date.getTime in the source; `now` stands for `new Date()` where the
     source uses it as a fallback;
   - JavaScript string defaulting `x || d`, where both undefined and the
     empty string fall back to the default, is modelled by `jsOr`;
   - fields that the source reads from optional JSON are Option-typed;
   - SQL ORDER BY start_time is modelled with an insertion sort (a
     computable stable sort);
   - the comparison JSON.stringify(a) === JSON.stringify(b) on attendee
     string arrays is modelled as list equality. -/

namespace GCalWa

/-- JavaScript string defaulting `x || d`: undefined and the empty string both fall back to the default. -/
def jsOr (o : Option String) (d : String) : String :=
  match o with
  | none => d
  | some s => if s = "" then d else s

/-- Raw Google calendar event as consumed by the services (fields of
interest; `start.dateTime`, `start.date` and friends are flattened). -/
structure GEvent where
  id : String
  summary : Option String
  description : Option String
  location : Option String
  startDateTime : Option Int
  startDate : Option Int
  endDateTime : Option Int
  endDate : Option Int
  updated : Option Int
  status : Option String
  attendees : List String
deriving DecidableEq

/-- Snapshot row of the calendar_events table (fields used by the core). -/
structure StoredEvent where
  user_id : Nat
  event_id : String
  summary : String
  description : String
  location : String
  start_time : Int
  end_time : Int
  all_day : Bool
  event_type : String
  status : String
  attendees : List String
  last_modified : Option Int
deriving DecidableEq

/-- Argument record of CalendarEventModel.upsert (interfaces.ts CreateEventData). -/
structure CreateEventData where
  userId : Nat
  eventId : String
  summary : String
  description : String
  location : String
  startTime : Int
  endTime : Int
  allDay : Bool
  eventType : String
  status : String
  attendees : List String
deriving DecidableEq

/-- A change record produced by CalendarService.checkForChanges. -/
inductive Change where
  | added (e : GEvent)
  | modified (e : GEvent)
  | deleted (e : StoredEvent)
deriving DecidableEq

/-- The event-type enum of types/enums.ts, with its string values. -/
inductive EventType where
  | WORK
  | PERSONAL
  | FREE
  | UNKNOWN
deriving DecidableEq

def eventTypeStr : EventType → String
  | EventType.WORK => "work"
  | EventType.PERSONAL => "personal"
  | EventType.FREE => "free"
  | EventType.UNKNOWN => "unknown"

/-- Evaluation of `new Date(e.start?.dateTime || e.start?.date || new Date()).getTime()`. -/
def gStartTime (now : Int) (g : GEvent) : Int :=
  match g.startDateTime with
  | some t => t
  | none =>
    match g.startDate with
    | some t => t
    | none => now

/-- Evaluation of `new Date(e.end?.dateTime || e.end?.date || new Date()).getTime()`. -/
def gEndTime (now : Int) (g : GEvent) : Int :=
  match g.endDateTime with
  | some t => t
  | none =>
    match g.endDate with
    | some t => t
    | none => now

/-- The contentChanged test of checkForChanges (calendarService.ts lines 252-258). -/
def contentChanged (now : Int) (stored : StoredEvent) (g : GEvent) : Bool :=
  (some stored.summary != g.summary) ||
  (stored.description != jsOr g.description "") ||
  (stored.location != jsOr g.location "") ||
  (stored.start_time != gStartTime now g) ||
  (stored.end_time != gEndTime now g) ||
  (stored.status != jsOr g.status "confirmed")

/-- The modified-classification of checkForChanges for a fresh event matched
against its stored snapshot: both timestamps must be present, the remote
one must be strictly newer, the difference must exceed five minutes
(minutesDiff > 5, i.e. more than 300000 ms), and the content must differ. -/
def isModifiedEvent (now : Int) (stored : StoredEvent) (g : GEvent) : Bool :=
  match g.updated, stored.last_modified with
  | some gu, some su =>
    if su < gu then
      if 5 * 60 * 1000 < gu - su then contentChanged now stored g else false
    else false
  | _, _ => false

/-- Classification of one fresh remote event against the stored snapshots
(first loop of checkForChanges): no stored match gives `added`, a stored
match gives `modified` exactly when isModifiedEvent holds. -/
def classifyFresh (now : Int) (storedEvents : List StoredEvent) (g : GEvent) : Option Change :=
  match storedEvents.find? (fun e => e.event_id == g.id) with
  | none => some (Change.added g)
  | some stored => if isModifiedEvent now stored g then some (Change.modified g) else none

/-- Second loop of checkForChanges: a stored snapshot with no fresh remote
counterpart yields a `deleted` record. -/
def deletedRecord (googleEvents : List GEvent) (s : StoredEvent) : Option Change :=
  match googleEvents.find? (fun g => g.id == s.event_id) with
  | none => some (Change.deleted s)
  | some _ => none

/-- Body of checkForChanges after a successful fetch: added and modified
records in fresh-list order, then deleted records in stored order. -/
def checkForChangesCore (now : Int) (googleEvents : List GEvent)
    (storedEvents : List StoredEvent) : List Change :=
  googleEvents.filterMap (classifyFresh now storedEvents) ++
    storedEvents.filterMap (deletedRecord googleEvents)

/-- CalendarEventModel.findByUserIdAndDateRange: rows of one user whose
start_time lies in [startDate, endDate) and whose status is not cancelled,
ordered by start_time ascending. -/
def findByUserIdAndDateRange (uid : Nat) (db : List StoredEvent)
    (startDate endDate : Int) : List StoredEvent :=
  (db.filter (fun r =>
      r.user_id == uid &&
      decide (startDate ≤ r.start_time) &&
      decide (r.start_time < endDate) &&
      r.status != "cancelled")).insertionSort
    (fun a b => a.start_time ≤ b.start_time)

/-- CalendarService.checkForChanges: a failed fetch (null) yields the empty
change list; a successful fetch is diffed against the stored snapshots of
the time window. -/
def checkForChanges (now : Int) (uid : Nat) (fetchResult : Option (List GEvent))
    (db : List StoredEvent) (startDate endDate : Int) : List Change :=
  match fetchResult with
  | none => []
  | some googleEvents =>
    checkForChangesCore now googleEvents (findByUserIdAndDateRange uid db startDate endDate)

/-- The eventData record built inside CalendarService.syncEvents for one raw
event.  The source hard-codes the string WORK as the event type (line 67,
commented `Default to WORK type`). -/
def syncEventData (uid : Nat) (now : Int) (g : GEvent) : CreateEventData :=
  { userId := uid
    eventId := g.id
    summary := jsOr g.summary "No Title"
    description := jsOr g.description ""
    startTime := gStartTime now g
    endTime := gEndTime now g
    location := jsOr g.location ""
    status := jsOr g.status "confirmed"
    allDay := g.startDateTime.isNone
    eventType := "WORK"
    attendees := g.attendees }

/-- Key predicate of the unique index (user_id, event_id). -/
def eventKeyMatch (uid : Nat) (eid : String) (r : StoredEvent) : Bool :=
  r.user_id == uid && r.event_id == eid

/-- The hasChanged comparison of CalendarEventModel.upsert (lines 38-45):
summary, description, location, start, end, status and attendees. -/
def hasChangedUpsert (existing : StoredEvent) (d : CreateEventData) : Bool :=
  (existing.summary != d.summary) ||
  (existing.description != d.description) ||
  (existing.location != d.location) ||
  (existing.start_time != d.startTime) ||
  (existing.end_time != d.endTime) ||
  (existing.status != d.status) ||
  (existing.attendees != d.attendees)

/-- The row written by upsert: every content column takes the incoming
value; last_modified becomes CURRENT_TIMESTAMP when changed holds and
keeps the previous value otherwise.  On a fresh insert the column default
CURRENT_TIMESTAMP applies, which is the changed := true case. -/
def upsertRow (now : Int) (d : CreateEventData) (oldLastModified : Option Int)
    (changed : Bool) : StoredEvent :=
  { user_id := d.userId
    event_id := d.eventId
    summary := d.summary
    description := d.description
    location := d.location
    start_time := d.startTime
    end_time := d.endTime
    all_day := d.allDay
    event_type := d.eventType
    status := d.status
    attendees := d.attendees
    last_modified := if changed then some now else oldLastModified }

/-- CalendarEventModel.upsert over a list-modelled table. -/
def upsert (now : Int) (db : List StoredEvent) (d : CreateEventData) : List StoredEvent :=
  match db.find? (eventKeyMatch d.userId d.eventId) with
  | none => db ++ [upsertRow now d none true]
  | some existing =>
    db.map (fun r =>
      if eventKeyMatch d.userId d.eventId r then
        upsertRow now d r.last_modified (hasChangedUpsert existing d)
      else r)

/-- CalendarEventModel.markAsCancelled: set status to cancelled and
last_modified to CURRENT_TIMESTAMP on the keyed row; no row is removed. -/
def markAsCancelled (uid : Nat) (eid : String) (now : Int)
    (db : List StoredEvent) : List StoredEvent :=
  db.map (fun r =>
    if eventKeyMatch uid eid r then
      { r with status := "cancelled", last_modified := some now }
    else r)

/-- AutomationService.processChanges, one change: added and modified events
are re-synced through syncEvents (hence upsert), deleted events are marked
cancelled. -/
def processChange (now : Int) (uid : Nat) (db : List StoredEvent) (c : Change) :
    List StoredEvent :=
  match c with
  | Change.added g => upsert now db (syncEventData uid now g)
  | Change.modified g => upsert now db (syncEventData uid now g)
  | Change.deleted s => markAsCancelled uid s.event_id now db

def processChanges (now : Int) (uid : Nat) (changes : List Change)
    (db : List StoredEvent) : List StoredEvent :=
  changes.foldl (processChange now uid) db

/-- AutomationService.checkUserForChanges restricted to its snapshot-store
effect: run checkForChanges and, only when changes were found, process
them; returns the resulting table and the change list. -/
def checkUserForChanges (now : Int) (uid : Nat) (fetchResult : Option (List GEvent))
    (db : List StoredEvent) (startDate endDate : Int) :
    List StoredEvent × List Change :=
  let changes := checkForChanges now uid fetchResult db startDate endDate
  if changes.length > 0 then (processChanges now uid changes db, changes)
  else (db, changes)

/-- True when no deleted record of the change list concerns the given
remote event id. -/
def noDeletedFor (eid : String) (changes : List Change) : Bool :=
  changes.all (fun c =>
    match c with
    | Change.deleted r => r.event_id != eid
    | _ => true)

/-- ASCII-faithful model of String.toLowerCase. -/
def lowerString (s : String) : String := String.mk (s.data.map Char.toLower)

/-- Substring test, the model of String.includes. -/
def containsStr (s sub : String) : Bool := decide (sub.data <:+: s.data)

/-- The work-indicative keyword list of CalendarEventFactory.categorizeEvent. -/
def workKeywords : List String :=
  ["meeting", "call", "interview", "presentation", "conference", "workshop",
   "training", "review", "planning", "standup", "sprint", "demo", "client",
   "business", "work", "office", "team", "project", "deadline", "deliverable"]

/-- The personal-indicative keyword list of CalendarEventFactory.categorizeEvent. -/
def personalKeywords : List String :=
  ["birthday", "anniversary", "dinner", "lunch", "coffee", "date", "party",
   "celebration", "family", "friend", "personal", "vacation", "holiday",
   "doctor", "dentist", "appointment", "gym", "workout", "exercise"]

/-- The scanned text of categorizeEvent: lower-cased summary, a space, and
the defaulted description. -/
def lowerText (summary : String) (description : Option String) : String :=
  lowerString (summary ++ " " ++ jsOr description "")

/-- CalendarEventFactory.categorizeEvent: work keywords first, then
personal keywords, else unknown. -/
def categorizeEvent (summary : String) (description : Option String) : EventType :=
  let text := lowerText summary description
  if workKeywords.any (fun k => containsStr text k) then EventType.WORK
  else if personalKeywords.any (fun k => containsStr text k) then EventType.PERSONAL
  else EventType.UNKNOWN

/-- One busy or free span of a day, in milliseconds. -/
structure Block where
  start : Int
  stop : Int
deriving DecidableEq

/-- The free-block loop of CalendarService.getTodaySummary (lines 141-160):
a gap is emitted when the cursor precedes the event start, and the cursor
is then set to the event end (a plain assignment, `currentTime = eventEnd`). -/
def computeFreeBlocksAux (dayEnd : Int) : Int → List (Int × Int) → List Block
  | cursor, [] =>
    if cursor < dayEnd then [{ start := cursor, stop := dayEnd }] else []
  | cursor, (s, e) :: rest =>
    (if cursor < s then [{ start := cursor, stop := s }] else []) ++
      computeFreeBlocksAux dayEnd e rest

def computeFreeBlocks (dayStart dayEnd : Int) (events : List (Int × Int)) : List Block :=
  computeFreeBlocksAux dayEnd dayStart events

/-- Modelled from the spec for comparison with the source: the cursor
advances to max(cursor, eventEnd) after each event, so it never moves
backward. -/
def specFreeBlocksAux (dayEnd : Int) : Int → List (Int × Int) → List Block
  | cursor, [] =>
    if cursor < dayEnd then [{ start := cursor, stop := dayEnd }] else []
  | cursor, (s, e) :: rest =>
    (if cursor < s then [{ start := cursor, stop := s }] else []) ++
      specFreeBlocksAux dayEnd (max cursor e) rest

def specFreeBlocks (dayStart dayEnd : Int) (events : List (Int × Int)) : List Block :=
  specFreeBlocksAux dayEnd dayStart events

/-- The rendering guard of the FREE section (lines 181-183):
durationMinutes = (end - start) / (1000 * 60) and the block is shown only
when durationMinutes >= 15.  The JavaScript float division is modelled by
exact rational division. -/
def freeBlockShown (b : Block) : Bool :=
  decide ((15 : Rat) ≤ ((b.stop - b.start : Int) : Rat) / (1000 * 60))

/-- The FREE section of the rendered summary, as the list of blocks whose
line is appended by the forEach loop. -/
def renderFreeSection : List Block → List Block
  | [] => []
  | b :: rest => (if freeBlockShown b then [b] else []) ++ renderFreeSection rest

/-- Fan-out of WhatsAppService: one sendMessage call per recipient, in list
order; sendMessage never throws (it catches and returns false), so every
outcome is a fulfilled boolean. -/
def fanOutSend (send : String → Bool) (recipients : List String) :
    List (String × Bool) :=
  recipients.map (fun r => (r, send r))

/-- WhatsAppService.sendDailySummary: Promise.allSettled over the
recipients, success iff successCount > 0.  Returns the overall flag and
the per-recipient attempt list. -/
def sendDailySummaryWA (send : String → Bool) (recipients : List String) :
    Bool × List (String × Bool) :=
  let results := fanOutSend send recipients
  let successCount := (results.filter (fun p => p.2 == true)).length
  (decide (0 < successCount), results)

/-- Template-literal rendering of a possibly undefined string. -/
def optToJs (o : Option String) : String :=
  match o with
  | none => "undefined"
  | some s => s

/-- The combined message of sendChangeNotification; locale time formatting
is abstracted by fmtTime. -/
def buildChangeMessage (fmtTime : Int → String) (changes : List Change) : String :=
  "🔄 *Calendar Changes Detected*\n\n" ++
    String.join (changes.map (fun c =>
      match c with
      | Change.added g =>
        "➕ *New Event:* " ++ optToJs g.summary ++ "\n" ++
          (match g.startDateTime with
           | some t => "⏰ Time: " ++ fmtTime t ++ "\n"
           | none => "") ++ "\n"
      | Change.modified g => "✏️ *Modified Event:* " ++ optToJs g.summary ++ "\n\n"
      | Change.deleted s => "❌ *Cancelled Event:* " ++ s.summary ++ "\n\n"))

/-- WhatsAppService.sendChangeNotification: build the combined message,
then the same fan-out and aggregation as sendDailySummary. -/
def sendChangeNotificationWA (fmtTime : Int → String) (send : String → Bool)
    (recipients : List String) (changes : List Change) :
    Bool × List (String × Bool) :=
  let _message := buildChangeMessage fmtTime changes
  let results := fanOutSend send recipients
  let successCount := (results.filter (fun p => p.2 == true)).length
  (decide (0 < successCount), results)

/-- User configuration fields read by the automation service. -/
structure AUser where
  automation_enabled : Bool
  daily_summary_time : String
  timezone : Option String
  whatsapp_recipients : Option (List String)
deriving DecidableEq

/-- In-memory state of AutomationService: the jobs map (userId string to a
timer handle), the set of live timer handles with their owner, and a
counter producing fresh handles. -/
structure SchedState where
  jobs : List (String × Nat)
  activeTimers : List (String × Nat)
  nextTimer : Nat
deriving DecidableEq

/-- Map.get on the jobs association list. -/
def jobsGet (jobs : List (String × Nat)) (k : String) : Option Nat :=
  (jobs.find? (fun p => p.1 == k)).map Prod.snd

/-- Map.set on the jobs association list. -/
def jobsSet (jobs : List (String × Nat)) (k : String) (v : Nat) :
    List (String × Nat) :=
  if jobs.any (fun p => p.1 == k) then
    jobs.map (fun p => if p.1 == k then (k, v) else p)
  else jobs ++ [(k, v)]

/-- Map.delete on the jobs association list. -/
def jobsDelete (jobs : List (String × Nat)) (k : String) : List (String × Nat) :=
  jobs.filter (fun p => p.1 != k)

/-- AutomationService.stopUserAutomation: look the user up in the jobs map;
when present, stop that timer handle and delete the map entry; otherwise a
total no-op (the source never throws here). -/
def stopUserAutomation (uid : Nat) (st : SchedState) : SchedState :=
  match jobsGet st.jobs (toString uid) with
  | none => st
  | some t =>
    { st with
      activeTimers := st.activeTimers.filter (fun p => p.2 != t)
      jobs := jobsDelete st.jobs (toString uid) }

/-- AutomationService.startUserAutomation: a missing or disabled user is a
no-op; otherwise the old job (if any) is stopped first, a fresh timer is
scheduled and registered in the jobs map. -/
def startUserAutomation (user : Option AUser) (uid : Nat) (st : SchedState) :
    SchedState :=
  match user with
  | none => st
  | some u =>
    if u.automation_enabled = false then st
    else
      let st1 := stopUserAutomation uid st
      let t := st1.nextTimer
      { jobs := jobsSet st1.jobs (toString uid) t
        activeTimers := st1.activeTimers ++ [(toString uid, t)]
        nextTimer := t + 1 }

/-- The live timers owned by one user. -/
def userTimers (st : SchedState) (uid : Nat) : List (String × Nat) :=
  st.activeTimers.filter (fun p => p.1 == toString uid)

/-- Consistency of the scheduler state at one user: the live timers owned
by the user are exactly the one registered in the jobs map, if any. -/
def SchedInv (st : SchedState) (uid : Nat) : Prop :=
  userTimers st uid =
    (match jobsGet st.jobs (toString uid) with
     | some t => [(toString uid, t)]
     | none => [])

/-- Result record of CalendarService.getTodaySummary as far as the
automation layer consumes it. -/
structure TodaySummaryRes where
  summary : String
  eventCount : Nat
deriving DecidableEq

/-- getTodaySummary never rejects: its try/catch maps any internal error to
the fallback record (the source fallback text contains an apostrophe,
elided here). -/
def getTodaySummaryTotal (raw : Except String TodaySummaryRes) : TodaySummaryRes :=
  match raw with
  | Except.ok r => r
  | Except.error _ => { summary := "Failed to retrieve todays schedule.", eventCount := 0 }

/-- Collaborator outcomes consumed by one AutomationService.sendDailySummary
run: the two user lookups (these may throw), the raw getTodaySummary
outcome, the per-recipient send outcomes, and the default recipient. -/
structure DailyEnv where
  findUser : Except String (Option AUser)
  findUser2 : Except String (Option AUser)
  todayRaw : Except String TodaySummaryRes
  send : String → Bool
  defaultRecipient : String

/-- The try block of AutomationService.sendDailySummary. -/
def sendDailySummaryBody (env : DailyEnv) : Except String Unit :=
  match env.findUser with
  | Except.error e => Except.error e
  | Except.ok none => Except.ok ()
  | Except.ok (some u) =>
    if u.automation_enabled = false then Except.ok ()
    else
      let _summary := getTodaySummaryTotal env.todayRaw
      let recipients := u.whatsapp_recipients.getD [env.defaultRecipient]
      let _result := sendDailySummaryWA env.send recipients
      Except.ok ()

/-- The catch block of AutomationService.sendDailySummary: a best-effort
error notification wrapped in its own try/catch. -/
def sendDailySummaryCatch (env : DailyEnv) : Except String Unit :=
  match env.findUser2 with
  | Except.error e => Except.error e
  | Except.ok none => Except.ok ()
  | Except.ok (some u) =>
    let recipients := u.whatsapp_recipients.getD [env.defaultRecipient]
    match recipients.head? with
    | some r => if r = "" then Except.ok () else (let _ := env.send r; Except.ok ())
    | none => Except.ok ()

/-- AutomationService.sendDailySummary: the try block, with every failure
routed into the catch block, whose own failure is swallowed as well. -/
def sendDailySummaryAuto (env : DailyEnv) : Except String Unit :=
  match sendDailySummaryBody env with
  | Except.ok _ => Except.ok ()
  | Except.error _ =>
    match sendDailySummaryCatch env with
    | Except.ok _ => Except.ok ()
    | Except.error _ => Except.ok ()

/-- The structured result of the manual trigger endpoints. -/
structure TriggerResult where
  success : Bool
  message : Option String
  error : Option String
deriving DecidableEq

/-- AutomationService.triggerDailySummary: await sendDailySummary and map
the outcome to a structured result. -/
def triggerDailySummary (env : DailyEnv) : TriggerResult :=
  match sendDailySummaryAuto env with
  | Except.ok _ =>
    { success := true, message := some "Daily summary sent successfully", error := none }
  | Except.error e =>
    { success := false, message := none, error := some e }

/- Concrete sample data used by the witness theorems. -/

/-- Sample stored snapshot row. -/
def sEx : StoredEvent :=
  { user_id := 1
    event_id := "ev1"
    summary := "Old title"
    description := ""
    location := ""
    start_time := 10
    end_time := 20
    all_day := false
    event_type := "WORK"
    status := "confirmed"
    attendees := []
    last_modified := some 0 }

/-- Sample fresh remote event: same id as sEx, new summary, updated 400000
ms (more than five minutes) after the stored last_modified. -/
def gEx : GEvent :=
  { id := "ev1"
    summary := some "New title"
    description := none
    location := none
    startDateTime := some 10
    startDate := none
    endDateTime := some 20
    endDate := none
    updated := some 400000
    status := some "confirmed"
    attendees := [] }

/-- Sample raw event whose text matches personal keywords only. -/
def gBirthday : GEvent :=
  { id := "ev2"
    summary := some "Birthday dinner with family"
    description := none
    location := none
    startDateTime := some 100
    startDate := none
    endDateTime := some 200
    endDate := none
    updated := none
    status := none
    attendees := [] }

/-- Sample upsert payload matching sEx except for the summary. -/
def dEx : CreateEventData :=
  { userId := 1
    eventId := "ev1"
    summary := "Renamed title"
    description := ""
    location := ""
    startTime := 10
    endTime := 20
    allDay := false
    eventType := "WORK"
    status := "confirmed"
    attendees := [] }

/-- Sample upsert payload with exactly the compared content of sEx. -/
def dSame : CreateEventData :=
  { userId := 1
    eventId := "ev1"
    summary := "Old title"
    description := ""
    location := ""
    startTime := 10
    endTime := 20
    allDay := false
    eventType := "WORK"
    status := "confirmed"
    attendees := [] }

/-- Sample enabled user configuration. -/
def uEx : AUser :=
  { automation_enabled := true
    daily_summary_time := "08:00"
    timezone := some "America/New_York"
    whatsapp_recipients := some ["+15550001111"] }

/-- Sample scheduler state with no jobs and no timers. -/
def stEx : SchedState := { jobs := [], activeTimers := [], nextTimer := 0 }

/- Helper lemmas shared by several claim proofs. -/

theorem filterMap_deletedRecord_nil (sl : List StoredEvent) :
    sl.filterMap (deletedRecord []) = sl.map Change.deleted := by
  induction sl with
  | nil => rfl
  | cons x xs ih => simp [List.filterMap_cons, deletedRecord, ih]

theorem renderFreeSection_eq_filter (l : List Block) :
    renderFreeSection l = l.filter freeBlockShown := by
  induction l with
  | nil => rfl
  | cons x xs ih =>
    by_cases h : freeBlockShown x <;> simp [renderFreeSection, h, ih, List.filter_cons]

theorem mem_renderFreeSection (l : List Block) (b : Block) :
    b ∈ renderFreeSection l ↔ b ∈ l ∧ freeBlockShown b = true := by
  rw [renderFreeSection_eq_filter, List.mem_filter]

theorem freeBlockShown_iff (b : Block) :
    freeBlockShown b = true ↔ 15 * 60 * 1000 ≤ b.stop - b.start := by
  unfold freeBlockShown
  rw [decide_eq_true_iff]
  rw [le_div_iff₀ (by norm_num : (0 : Rat) < 1000 * 60)]
  have h : (15 * (1000 * 60) : Rat) = ((15 * 60 * 1000 : Int) : Rat) := by norm_num
  rw [h, Int.cast_le]

theorem countFilter_pos_iff (l : List (String × Bool)) :
    (0 < (l.filter (fun p => p.2 == true)).length) ↔ ∃ p ∈ l, p.2 = true := by
  rw [← List.countP_eq_length_filter]
  simp [List.countP_pos_iff]

theorem mem_findRange (uid : Nat) (db : List StoredEvent) (startDate endDate : Int)
    (r : StoredEvent) :
    r ∈ findByUserIdAndDateRange uid db startDate endDate ↔
      (r ∈ db ∧ r.user_id = uid ∧ startDate ≤ r.start_time ∧
        r.start_time < endDate ∧ r.status ≠ "cancelled") := by
  unfold findByUserIdAndDateRange
  rw [List.mem_insertionSort, List.mem_filter]
  simp [Bool.and_eq_true, bne_iff_ne, and_assoc]

end GCalWa

namespace GCalWa

/-- C10: AutomationService.triggerDailySummary always resolves with the
fixed success record, for every combination of collaborator outcomes: the
try/catch structure of sendDailySummary swallows every internal failure
(user lookup error, missing or disabled user, summary failure, send
failure), so the success:false branch of the trigger is unreachable. -/
theorem c10_triggerDailySummary_always_success (env : DailyEnv) :
    triggerDailySummary env =
      { success := true, message := some "Daily summary sent successfully", error := none } := by
  unfold triggerDailySummary sendDailySummaryAuto
  cases sendDailySummaryBody env with
  | ok _ => rfl
  | error _ =>
    cases sendDailySummaryCatch env with
    | ok _ => rfl
    | error _ => rfl

/-- C7: the WhatsApp fan-out attempts every recipient exactly once, in list
order, regardless of individual outcomes, and the aggregate result is true
iff at least one recipient send succeeded; sendChangeNotification performs
the identical fan-out and aggregation. -/
theorem c7_fanout_partial_success (send : String → Bool) (recipients : List String)
    (fmtTime : Int → String) (changes : List Change) :
    ((sendDailySummaryWA send recipients).2.map Prod.fst = recipients) ∧
    ((sendDailySummaryWA send recipients).1 = true ↔ ∃ r ∈ recipients, send r = true) ∧
    ((sendChangeNotificationWA fmtTime send recipients changes).2 =
      (sendDailySummaryWA send recipients).2) ∧
    ((sendChangeNotificationWA fmtTime send recipients changes).1 =
      (sendDailySummaryWA send recipients).1) := by
  refine ⟨?_, ?_, rfl, rfl⟩
  · simp [sendDailySummaryWA, fanOutSend, List.map_map, Function.comp_def]
  · rw [show (sendDailySummaryWA send recipients).1 =
        decide (0 < ((fanOutSend send recipients).filter (fun p => p.2 == true)).length) from rfl]
    rw [decide_eq_true_iff, countFilter_pos_iff]
    unfold fanOutSend
    constructor
    · rintro ⟨p, hp, hv⟩
      rcases List.mem_map.1 hp with ⟨r, hr, rfl⟩
      exact ⟨r, hr, hv⟩
    · rintro ⟨r, hr, hv⟩
      exact ⟨(r, send r), List.mem_map_of_mem _ hr, hv⟩

/-- C8: a computed free block appears in the rendered FREE section iff its
duration is at least 15 minutes (900000 ms); in particular a 14-minute gap
is never rendered and an exactly 15-minute gap always is. -/
theorem c8_free_block_floor (dayStart dayEnd : Int) (events : List (Int × Int)) (b : Block) :
    b ∈ renderFreeSection (computeFreeBlocks dayStart dayEnd events) ↔
      b ∈ computeFreeBlocks dayStart dayEnd events ∧ 15 * 60 * 1000 ≤ b.stop - b.start := by
  rw [mem_renderFreeSection, freeBlockShown_iff]

/-- C2: a failed fetch (null) makes checkForChanges return the empty change
list and leaves the snapshot table untouched in the surrounding
checkUserForChanges cycle, while a successful fetch of zero events yields a
deleted record for exactly the stored, non-cancelled events of the window. -/
theorem c2_fetch_failure_isolation (now : Int) (uid : Nat) (db : List StoredEvent)
    (startDate endDate : Int) :
    checkForChanges now uid none db startDate endDate = [] ∧
    (checkUserForChanges now uid none db startDate endDate).1 = db ∧
    checkForChanges now uid (some []) db startDate endDate =
      (findByUserIdAndDateRange uid db startDate endDate).map Change.deleted ∧
    (∀ r : StoredEvent,
      Change.deleted r ∈ checkForChanges now uid (some []) db startDate endDate ↔
        (r ∈ db ∧ r.user_id = uid ∧ startDate ≤ r.start_time ∧
          r.start_time < endDate ∧ r.status ≠ "cancelled")) := by
  have heq : checkForChanges now uid (some []) db startDate endDate =
      (findByUserIdAndDateRange uid db startDate endDate).map Change.deleted := by
    show checkForChangesCore now [] (findByUserIdAndDateRange uid db startDate endDate) = _
    unfold checkForChangesCore
    rw [List.filterMap_nil, List.nil_append, filterMap_deletedRecord_nil]
  refine ⟨rfl, rfl, heq, ?_⟩
  intro r
  rw [heq, List.mem_map]
  constructor
  · rintro ⟨x, hx, hinj⟩
    rw [Change.deleted.injEq] at hinj
    rw [← hinj]
    exact (mem_findRange uid db startDate endDate x).1 hx
  · intro hp
    exact ⟨r, (mem_findRange uid db startDate endDate r).2 hp, rfl⟩

/-- C3: evaluation of the free-block loop on a nested pair of events inside
the day window [0, 86399000).  The source assigns the event end to the
cursor instead of taking the maximum, so after the nested event
[200, 300) the cursor moves backward from 500 to 300 and the reported
trailing free block [300, 86399000) overlaps the busy span [300, 500) of
the first event; the cursor-never-moves-backward computation modelled from
the spec reports [500, 86399000) instead. -/
theorem c3_nested_event_free_block_bug :
    computeFreeBlocks 0 86399000 [(100, 500), (200, 300)] =
      [{ start := 0, stop := 100 }, { start := 300, stop := 86399000 }] ∧
    specFreeBlocks 0 86399000 [(100, 500), (200, 300)] =
      [{ start := 0, stop := 100 }, { start := 500, stop := 86399000 }] ∧
    computeFreeBlocks 0 86399000 [(100, 500), (200, 300)] ≠
      specFreeBlocks 0 86399000 [(100, 500), (200, 300)] := by
  refine ⟨by decide, by decide, by decide⟩

/-- C4 counterexample: the claim extends the keyword categorization to the
sync path, but CalendarService.syncEvents stores the literal string WORK
for every event; on an event whose text matches only personal keywords the
stored type disagrees with the categorization of the normalizer. -/
theorem c4_sync_eventType_counterexample :
    categorizeEvent "Birthday dinner with family" none = EventType.PERSONAL ∧
    (syncEventData 1 0 gBirthday).summary = "Birthday dinner with family" ∧
    (syncEventData 1 0 gBirthday).eventType = "WORK" ∧
    (syncEventData 1 0 gBirthday).eventType ≠
      eventTypeStr (categorizeEvent "Birthday dinner with family" none) := by
  refine ⟨by decide, by decide, by decide, by decide⟩

/-- C4 amended: CalendarEventFactory.categorizeEvent scans the lower-cased
concatenation of summary and description against the work keyword set and
then the personal keyword set, returning UNKNOWN when neither occurs; but
the sync path (syncEvents) does not use it and stores the event type WORK
unconditionally. -/
theorem c4_categorize_amended (s : String) (d : Option String) (uid : Nat)
    (now : Int) (g : GEvent) :
    (categorizeEvent s d = EventType.WORK ↔
      ∃ k ∈ workKeywords, k.data <:+: (lowerText s d).data) ∧
    (categorizeEvent s d = EventType.PERSONAL ↔
      ((¬ ∃ k ∈ workKeywords, k.data <:+: (lowerText s d).data) ∧
        ∃ k ∈ personalKeywords, k.data <:+: (lowerText s d).data)) ∧
    (categorizeEvent s d = EventType.UNKNOWN ↔
      ((¬ ∃ k ∈ workKeywords, k.data <:+: (lowerText s d).data) ∧
        ¬ ∃ k ∈ personalKeywords, k.data <:+: (lowerText s d).data)) ∧
    (syncEventData uid now g).eventType = "WORK" := by
  have hw : (workKeywords.any (fun k => containsStr (lowerText s d) k) = true) ↔
      ∃ k ∈ workKeywords, k.data <:+: (lowerText s d).data := by
    simp [List.any_eq_true, containsStr]
  have hp : (personalKeywords.any (fun k => containsStr (lowerText s d) k) = true) ↔
      ∃ k ∈ personalKeywords, k.data <:+: (lowerText s d).data := by
    simp [List.any_eq_true, containsStr]
  refine ⟨?_, ?_, ?_, rfl⟩ <;>
    · unfold categorizeEvent
      by_cases h1 : workKeywords.any (fun k => containsStr (lowerText s d) k) <;>
        by_cases h2 : personalKeywords.any (fun k => containsStr (lowerText s d) k) <;>
          simp [h1, h2, ← hw, ← hp]

theorem contentChanged_iff (now : Int) (stored : StoredEvent) (g : GEvent) :
    contentChanged now stored g = true ↔
      (some stored.summary ≠ g.summary ∨
       stored.description ≠ jsOr g.description "" ∨
       stored.location ≠ jsOr g.location "" ∨
       stored.start_time ≠ gStartTime now g ∨
       stored.end_time ≠ gEndTime now g ∨
       stored.status ≠ jsOr g.status "confirmed") := by
  constructor
  · intro h
    simpa [contentChanged, Bool.or_eq_true, bne_iff_ne, or_assoc] using h
  · intro h
    simpa [contentChanged, Bool.or_eq_true, bne_iff_ne, or_assoc] using h

theorem isModifiedEvent_iff (now : Int) (stored : StoredEvent) (g : GEvent)
    (gu su : Int) (hgu : g.updated = some gu) (hsu : stored.last_modified = some su) :
    isModifiedEvent now stored g = true ↔
      (5 * 60 * 1000 < gu - su ∧ contentChanged now stored g = true) := by
  unfold isModifiedEvent
  rw [hgu, hsu]
  show (if su < gu then
      (if 5 * 60 * 1000 < gu - su then contentChanged now stored g else false)
    else false) = true ↔ _
  constructor
  · intro h
    split_ifs at h with h1 h2
    exact ⟨h2, h⟩
  · rintro ⟨h1, h2⟩
    have hlt : su < gu := by omega
    rw [if_pos hlt, if_pos h1]
    exact h2

/-- C1: for a fresh remote event matched to a stored snapshot by event id,
with both timestamps present, checkForChanges emits a modified record iff
the remote updated timestamp exceeds the stored last_modified by strictly
more than five minutes AND at least one of summary, description, location,
start time, end time, status differs; in particular a content change under
a sub-threshold delta, or a super-threshold delta with equal content,
emits nothing. -/
theorem c1_modified_iff (now : Int) (storedEvents : List StoredEvent) (g : GEvent)
    (stored : StoredEvent) (gu su : Int)
    (hfind : storedEvents.find? (fun e => e.event_id == g.id) = some stored)
    (hgu : g.updated = some gu) (hsu : stored.last_modified = some su) :
    Change.modified g ∈ checkForChangesCore now [g] storedEvents ↔
      (5 * 60 * 1000 < gu - su ∧
        (some stored.summary ≠ g.summary ∨
         stored.description ≠ jsOr g.description "" ∨
         stored.location ≠ jsOr g.location "" ∨
         stored.start_time ≠ gStartTime now g ∨
         stored.end_time ≠ gEndTime now g ∨
         stored.status ≠ jsOr g.status "confirmed")) := by
  have hdel : Change.modified g ∉ storedEvents.filterMap (deletedRecord [g]) := by
    intro hmem
    rcases List.mem_filterMap.1 hmem with ⟨x, _, hx⟩
    unfold deletedRecord at hx
    cases hf : List.find? (fun g2 => g2.id == x.event_id) [g] <;> rw [hf] at hx <;> simp at hx
  have hmain : Change.modified g ∈ List.filterMap (classifyFresh now storedEvents) [g] ↔
      isModifiedEvent now stored g = true := by
    rw [List.filterMap_cons, List.filterMap_nil]
    unfold classifyFresh
    rw [hfind]
    by_cases him : isModifiedEvent now stored g <;> simp [him]
  have key : Change.modified g ∈ checkForChangesCore now [g] storedEvents ↔
      isModifiedEvent now stored g = true := by
    rw [show checkForChangesCore now [g] storedEvents =
        List.filterMap (classifyFresh now storedEvents) [g] ++
          storedEvents.filterMap (deletedRecord [g]) from rfl]
    rw [List.mem_append]
    constructor
    · rintro (h | h)
      · exact hmain.1 h
      · exact absurd h hdel
    · intro h
      exact Or.inl (hmain.2 h)
  rw [key, isModifiedEvent_iff now stored g gu su hgu hsu, contentChanged_iff]

/-- C1 witness: a concrete matched event whose updated timestamp is 400000
ms newer than the stored last_modified and whose summary differs is
reported as modified. -/
theorem c1_modified_iff_witness :
    Change.modified gEx ∈ checkForChangesCore 0 [gEx] [sEx] :=
  (c1_modified_iff 0 [sEx] gEx sEx 400000 0 (by decide) (by decide) (by decide)).mpr
    (by decide)

theorem find?_map_of_keyPreserving (key : StoredEvent → Bool)
    (T : StoredEvent → StoredEvent) (hT : ∀ x, key (T x) = true)
    (l : List StoredEvent) (r : StoredEvent) (h : l.find? key = some r) :
    (l.map (fun x => if key x then T x else x)).find? key = some (T r) := by
  induction l with
  | nil => simp at h
  | cons x xs ih =>
    by_cases hx : key x
    · rw [List.find?_cons_of_pos _ hx] at h
      rw [List.map_cons, if_pos hx, List.find?_cons_of_pos _ (hT x)]
      rw [Option.some.injEq] at h
      rw [h]
    · rw [List.find?_cons_of_neg _ hx] at h
      have hx2 : key (if key x then T x else x) = false := by
        rw [if_neg hx]
        exact Bool.eq_false_iff.2 hx
      rw [List.map_cons, List.find?_cons_of_neg _ (by rw [hx2]; exact Bool.false_ne_true)]
      exact ih h

theorem hasChangedUpsert_false_iff (r : StoredEvent) (d : CreateEventData) :
    hasChangedUpsert r d = false ↔
      (r.summary = d.summary ∧ r.description = d.description ∧
       r.location = d.location ∧ r.start_time = d.startTime ∧
       r.end_time = d.endTime ∧ r.status = d.status ∧ r.attendees = d.attendees) := by
  rw [← Bool.not_eq_true]
  simp [hasChangedUpsert, Bool.or_eq_true, bne_iff_ne]
  tauto

/-- C9: the snapshot upsert advances last_modified iff the row is new or
the compared content, summary, description, location, start time, end
time, status and attendees, differs from the stored row; re-upserting a
row with identical compared content keeps last_modified, while every
content column still takes the incoming value (upsertRow). -/
theorem c9_upsert_lastModified (now : Int) (db : List StoredEvent) (d : CreateEventData) :
    (db.find? (eventKeyMatch d.userId d.eventId) = none →
      (upsert now db d = db ++ [upsertRow now d none true] ∧
       (upsertRow now d none true).last_modified = some now)) ∧
    (∀ r, db.find? (eventKeyMatch d.userId d.eventId) = some r →
      ((upsert now db d).find? (eventKeyMatch d.userId d.eventId) =
          some (upsertRow now d r.last_modified (hasChangedUpsert r d)) ∧
       (hasChangedUpsert r d = false ↔
         (r.summary = d.summary ∧ r.description = d.description ∧
          r.location = d.location ∧ r.start_time = d.startTime ∧
          r.end_time = d.endTime ∧ r.status = d.status ∧
          r.attendees = d.attendees)) ∧
       (upsertRow now d r.last_modified (hasChangedUpsert r d)).last_modified =
         (if hasChangedUpsert r d then some now else r.last_modified))) := by
  constructor
  · intro h
    refine ⟨?_, rfl⟩
    unfold upsert
    rw [h]
  · intro r h
    refine ⟨?_, hasChangedUpsert_false_iff r d, rfl⟩
    unfold upsert
    rw [h]
    exact find?_map_of_keyPreserving (eventKeyMatch d.userId d.eventId)
      (fun x => upsertRow now d x.last_modified (hasChangedUpsert r d))
      (fun x => by simp [eventKeyMatch, upsertRow]) db r h

/-- C9 witness: a fresh insert gets last_modified = CURRENT_TIMESTAMP, a
content-changing re-upsert replaces the keyed row, and a re-upsert with
identical compared content keeps the stored last_modified. -/
theorem c9_upsert_lastModified_witness :
    (upsert 7 [] dEx = [] ++ [upsertRow 7 dEx none true] ∧
      (upsertRow 7 dEx none true).last_modified = some 7) ∧
    ((upsert 7 [sEx] dEx).find? (eventKeyMatch dEx.userId dEx.eventId) =
      some (upsertRow 7 dEx sEx.last_modified (hasChangedUpsert sEx dEx))) ∧
    ((upsert 7 [sEx] dSame).find? (eventKeyMatch dSame.userId dSame.eventId) =
      some (upsertRow 7 dSame sEx.last_modified (hasChangedUpsert sEx dSame))) ∧
    (upsertRow 7 dSame sEx.last_modified (hasChangedUpsert sEx dSame)).last_modified =
      some 0 :=
  ⟨(c9_upsert_lastModified 7 [] dEx).1 (by decide),
   ((c9_upsert_lastModified 7 [sEx] dEx).2 sEx (by decide)).1,
   ((c9_upsert_lastModified 7 [sEx] dSame).2 sEx (by decide)).1,
   by decide⟩

theorem filter_swap {α : Type} (p q : α → Bool) (l : List α) :
    (l.filter p).filter q = (l.filter q).filter p := by
  induction l with
  | nil => rfl
  | cons x xs ih => by_cases hp : p x <;> by_cases hq : q x <;> simp [hp, hq, ih]

theorem jobsGet_delete (jobs : List (String × Nat)) (k : String) :
    jobsGet (jobsDelete jobs k) k = none := by
  unfold jobsGet jobsDelete
  rw [List.find?_eq_none.2]
  · rfl
  · intro p hp
    have := (List.mem_filter.1 hp).2
    simp only [bne_iff_ne, ne_eq] at this
    simp [this]

theorem find?_jobsMap (jobs : List (String × Nat)) (k : String) (v : Nat)
    (h : jobs.any (fun p => p.1 == k) = true) :
    (jobs.map (fun p => if p.1 == k then (k, v) else p)).find? (fun p => p.1 == k) =
      some (k, v) := by
  induction jobs with
  | nil => simp at h
  | cons x xs ih =>
    by_cases hx : (x.1 == k) = true
    · rw [List.map_cons, if_pos hx]
      rw [List.find?_cons_of_pos _ (by simp)]
    · have h2 : xs.any (fun p => p.1 == k) = true := by
        simpa [List.any_cons, hx] using h
      rw [List.map_cons, if_neg hx]
      rw [List.find?_cons_of_neg _ (by exact hx)]
      exact ih h2

theorem find?_jobsAppend (jobs : List (String × Nat)) (k : String) (v : Nat)
    (h : jobs.any (fun p => p.1 == k) = false) :
    ((jobs ++ [(k, v)]).find? (fun p => p.1 == k)) = some (k, v) := by
  induction jobs with
  | nil => simp
  | cons x xs ih =>
    have hx : (x.1 == k) = false := by
      by_contra hc
      rw [List.any_cons] at h
      rw [Bool.not_eq_false] at hc
      rw [hc] at h
      simp at h
    have h2 : xs.any (fun p => p.1 == k) = false := by
      rw [List.any_cons] at h
      rcases Bool.or_eq_false_iff.1 h with ⟨_, h3⟩
      exact h3
    rw [List.cons_append, List.find?_cons_of_neg _ (by simp [hx]), ih h2]

theorem jobsGet_set (jobs : List (String × Nat)) (k : String) (v : Nat) :
    jobsGet (jobsSet jobs k v) k = some v := by
  unfold jobsSet
  by_cases h : jobs.any (fun p => p.1 == k)
  · rw [if_pos h]
    unfold jobsGet
    rw [find?_jobsMap jobs k v h]
    rfl
  · rw [if_neg h]
    unfold jobsGet
    rw [find?_jobsAppend jobs k v (Bool.eq_false_iff.2 h)]
    rfl

theorem userTimers_stop (st : SchedState) (uid : Nat) (hInv : SchedInv st uid) :
    userTimers (stopUserAutomation uid st) uid = [] := by
  unfold SchedInv at hInv
  unfold stopUserAutomation
  cases hj : jobsGet st.jobs (toString uid) with
  | none =>
    rw [hj] at hInv
    exact hInv
  | some t =>
    rw [hj] at hInv
    unfold userTimers at hInv ⊢
    show (st.activeTimers.filter (fun p => p.2 != t)).filter
        (fun p => p.1 == toString uid) = []
    rw [filter_swap, hInv]
    simp

theorem stop_nextTimer (st : SchedState) (uid : Nat) :
    (stopUserAutomation uid st).nextTimer = st.nextTimer := by
  unfold stopUserAutomation
  cases jobsGet st.jobs (toString uid) <;> rfl

theorem start_effect (st : SchedState) (uid : Nat) (u : AUser)
    (hEn : u.automation_enabled = true) (hInv : SchedInv st uid) :
    (userTimers (startUserAutomation (some u) uid st) uid =
      [(toString uid, (stopUserAutomation uid st).nextTimer)]) ∧
    SchedInv (startUserAutomation (some u) uid st) uid := by
  have hclear := userTimers_stop st uid hInv
  obtain ⟨en, dt, tz, wr⟩ := u
  change en = true at hEn
  subst hEn
  have hmain : userTimers
      (startUserAutomation (some ⟨true, dt, tz, wr⟩) uid st) uid =
      [(toString uid, (stopUserAutomation uid st).nextTimer)] := by
    show ((stopUserAutomation uid st).activeTimers ++
        [(toString uid, (stopUserAutomation uid st).nextTimer)]).filter
        (fun p => p.1 == toString uid) = _
    rw [List.filter_append]
    unfold userTimers at hclear
    rw [hclear, List.nil_append]
    simp
  refine ⟨hmain, ?_⟩
  unfold SchedInv
  rw [hmain]
  have hjobs : jobsGet
      (startUserAutomation (some ⟨true, dt, tz, wr⟩) uid st).jobs (toString uid) =
      some (stopUserAutomation uid st).nextTimer := by
    show jobsGet (jobsSet (stopUserAutomation uid st).jobs (toString uid)
        (stopUserAutomation uid st).nextTimer) (toString uid) = _
    exact jobsGet_set _ _ _
  rw [hjobs]

theorem stop_idempotent (st : SchedState) (uid : Nat) :
    stopUserAutomation uid (stopUserAutomation uid st) = stopUserAutomation uid st := by
  cases hj : jobsGet st.jobs (toString uid) with
  | none =>
    have h1 : stopUserAutomation uid st = st := by
      unfold stopUserAutomation
      rw [hj]
    rw [h1]
    unfold stopUserAutomation
    rw [hj]
  | some t =>
    have h1 : jobsGet (stopUserAutomation uid st).jobs (toString uid) = none := by
      unfold stopUserAutomation
      rw [hj]
      exact jobsGet_delete st.jobs (toString uid)
    show (match jobsGet (stopUserAutomation uid st).jobs (toString uid) with
      | none => stopUserAutomation uid st
      | some t2 =>
        { stopUserAutomation uid st with
          activeTimers := (stopUserAutomation uid st).activeTimers.filter (fun p => p.2 != t2)
          jobs := jobsDelete (stopUserAutomation uid st).jobs (toString uid) }) =
      stopUserAutomation uid st
    rw [h1]

/-- C5: from any scheduler state consistent at a user, starting the
automation of an enabled user twice in a row leaves exactly one live timer
for that user (the restart cancels the previous timer first), and stopping
is an idempotent total operation, so stopping with no registered timer is
a no-op that cannot throw. -/
theorem c5_scheduler_restart_safety (st : SchedState) (uid : Nat) (u : AUser)
    (hEn : u.automation_enabled = true) (hInv : SchedInv st uid) :
    ((userTimers (startUserAutomation (some u) uid
        (startUserAutomation (some u) uid st)) uid).length = 1) ∧
    stopUserAutomation uid (stopUserAutomation uid st) = stopUserAutomation uid st := by
  have h1 := start_effect st uid u hEn hInv
  have h2 := start_effect (startUserAutomation (some u) uid st) uid u hEn h1.2
  exact ⟨by rw [h2.1]; rfl, stop_idempotent st uid⟩

/-- C5 witness: starting twice from the empty scheduler state leaves one
live timer for user 1, and double stop equals single stop there. -/
theorem c5_scheduler_restart_safety_witness :
    ((userTimers (startUserAutomation (some uEx) 1
        (startUserAutomation (some uEx) 1 stEx)) 1).length = 1) ∧
    stopUserAutomation 1 (stopUserAutomation 1 stEx) = stopUserAutomation 1 stEx :=
  c5_scheduler_restart_safety stEx 1 uEx (by decide) (by rfl)

theorem deleted_mem_core (now : Int) (gl : List GEvent) (sl : List StoredEvent)
    (r : StoredEvent) (h : Change.deleted r ∈ checkForChangesCore now gl sl) :
    r ∈ sl := by
  unfold checkForChangesCore at h
  rcases List.mem_append.1 h with h1 | h2
  · exfalso
    rcases List.mem_filterMap.1 h1 with ⟨g, _, hcls⟩
    unfold classifyFresh at hcls
    cases hf : sl.find? (fun e => e.event_id == g.id) with
    | none =>
      rw [hf] at hcls
      simp at hcls
    | some se =>
      rw [hf] at hcls
      by_cases him : isModifiedEvent now se g <;> simp [him] at hcls
  · rcases List.mem_filterMap.1 h2 with ⟨s, hs, hdel⟩
    unfold deletedRecord at hdel
    cases hf : gl.find? (fun g => g.id == s.event_id) <;> rw [hf] at hdel
    · rw [Option.some.injEq, Change.deleted.injEq] at hdel
      rw [← hdel]
      exact hs
    · simp at hdel

theorem markAsCancelled_keys (uid : Nat) (eid : String) (now : Int)
    (db : List StoredEvent) :
    (markAsCancelled uid eid now db).map (fun x => (x.user_id, x.event_id)) =
      db.map (fun x => (x.user_id, x.event_id)) := by
  unfold markAsCancelled
  induction db with
  | nil => rfl
  | cons x xs ih =>
    rw [List.map_cons, List.map_cons, List.map_cons, ih]
    by_cases hk : eventKeyMatch uid eid x
    · rw [if_pos hk]
    · rw [if_neg hk]

/-- C6: the deleted record produced for a snapshot row missing from a
successful fetch is processed as a soft delete: every (user, event) key of
the table survives, the keyed row reappears with status cancelled and a
fresh last_modified, and re-running the identical fetch afterwards
produces no further deleted record for that event id, because the range
query excludes cancelled rows. -/
theorem c6_soft_delete (now now2 : Int) (uid : Nat) (db : List StoredEvent)
    (gl : List GEvent) (startDate endDate : Int) (r : StoredEvent)
    (h : Change.deleted r ∈ checkForChanges now uid (some gl) db startDate endDate) :
    ((processChanges now2 uid [Change.deleted r] db).map (fun x => (x.user_id, x.event_id)) =
      db.map (fun x => (x.user_id, x.event_id))) ∧
    ({ r with status := "cancelled", last_modified := some now2 } ∈
      processChanges now2 uid [Change.deleted r] db) ∧
    (noDeletedFor r.event_id
      (checkForChanges now uid (some gl)
        (processChanges now2 uid [Change.deleted r] db) startDate endDate) = true) := by
  have hmem : r ∈ findByUserIdAndDateRange uid db startDate endDate :=
    deleted_mem_core now gl _ r h
  rcases (mem_findRange uid db startDate endDate r).1 hmem with
    ⟨hrdb, hruid, _, _, _⟩
  have hdb : processChanges now2 uid [Change.deleted r] db =
      markAsCancelled uid r.event_id now2 db := rfl
  rw [hdb]
  refine ⟨markAsCancelled_keys uid r.event_id now2 db, ?_, ?_⟩
  · have hkey : eventKeyMatch uid r.event_id r = true := by
      simp [eventKeyMatch, hruid]
    unfold markAsCancelled
    exact List.mem_map.2 ⟨r, hrdb, by simp [hkey]⟩
  · unfold noDeletedFor
    rw [List.all_eq_true]
    intro c hc
    cases c with
    | added g => rfl
    | modified g => rfl
    | deleted r2 =>
      show (r2.event_id != r.event_id) = true
      rw [bne_iff_ne, ne_eq]
      intro heq
      have h2 := deleted_mem_core now gl _ r2 hc
      rcases (mem_findRange uid (markAsCancelled uid r.event_id now2 db)
          startDate endDate r2).1 h2 with ⟨h2db, h2uid, _, _, h2st⟩
      unfold markAsCancelled at h2db
      rcases List.mem_map.1 h2db with ⟨x, _, hx⟩
      by_cases hk : eventKeyMatch uid r.event_id x
      · rw [if_pos hk] at hx
        apply h2st
        rw [← hx]
      · rw [if_neg hk] at hx
        apply hk
        rw [show eventKeyMatch uid r.event_id x = true ↔
            (x.user_id == uid && x.event_id == r.event_id) = true from Iff.rfl]
        rw [Bool.and_eq_true, beq_iff_eq, beq_iff_eq]
        rw [hx]
        exact ⟨h2uid, heq⟩

/-- C6 witness: one confirmed stored row absent from an empty successful
fetch is soft-deleted and not re-reported on the identical second fetch. -/
theorem c6_soft_delete_witness :
    (((processChanges 50 1 [Change.deleted sEx] [sEx]).map
        (fun x => (x.user_id, x.event_id))) =
      [sEx].map (fun x => (x.user_id, x.event_id))) ∧
    ({ sEx with status := "cancelled", last_modified := some 50 } ∈
      processChanges 50 1 [Change.deleted sEx] [sEx]) ∧
    (noDeletedFor sEx.event_id
      (checkForChanges 0 1 (some [])
        (processChanges 50 1 [Change.deleted sEx] [sEx]) 0 100) = true) :=
  c6_soft_delete 0 50 1 [sEx] [] 0 100 sEx (by decide)

end GCalWa
